import Mathlib

/-!
Shallow embedding of plugdata's `SuggestionComponent.h` and `PluginMode.h`
(presentation layer of the plugdata patching environment), together with
theorems settling the specification claims about them.

Strings are modelled as `List Char` (JUCE `String`); JUCE string operations
(`contains`, `upToFirstOccurrenceOf`, `fromFirstOccurrenceOf`) are translated
from their documented semantics as used at the call sites.  `float`
arithmetic in the layout math is modelled over `ℚ`; C++ integer division,
modulo and `static_cast<int>` of a nonnegative float are modelled with
truncating operations (`Int.tdiv`, `Int.tmod`, truncation of a rational).
-/

namespace Plugdata

/-- JUCE `String`, modelled as a list of characters. -/
abbrev JStr := List Char

/-- Case folding used by JUCE case-insensitive comparisons. -/
def foldCase (c : Char) : Char := c.toLower

/-- Character comparison, optionally case-insensitive
(JUCE `ignoreCase` flag). -/
def charEq (ignoreCase : Bool) (a b : Char) : Bool :=
  if ignoreCase then foldCase a == foldCase b else a == b

/-- Whether `sub` occurs at the very start of `s`
(under the given case sensitivity). -/
def subAtStart (ignoreCase : Bool) : JStr → JStr → Bool
  | [], _ => true
  | _ :: _, [] => false
  | a :: as, b :: bs => charEq ignoreCase a b && subAtStart ignoreCase as bs

/-- Index of the first occurrence of `sub` inside `s`
(JUCE `String::indexOf`); `none` when `sub` never occurs. -/
def indexOfSub (ignoreCase : Bool) (sub : JStr) : JStr → Option Nat
  | [] => if subAtStart ignoreCase sub [] then some 0 else none
  | c :: rest =>
      if subAtStart ignoreCase sub (c :: rest) then some 0
      else (indexOfSub ignoreCase sub rest).map (· + 1)

/-- JUCE `String::contains`. -/
def containsSub (s sub : JStr) : Bool :=
  (indexOfSub false sub s).isSome

/-- JUCE `String::upToFirstOccurrenceOf sub includeSubString ignoreCase`:
everything before the first occurrence of `sub`; the whole string when
`sub` does not occur. -/
def upToFirstOccurrenceOf (s sub : JStr) (includeSub ignoreCase : Bool) : JStr :=
  match indexOfSub ignoreCase sub s with
  | none => s
  | some i => s.take (if includeSub then i + sub.length else i)

/-- JUCE `String::fromFirstOccurrenceOf sub includeSubString ignoreCase`:
everything after the first occurrence of `sub`; empty when `sub` does not
occur. -/
def fromFirstOccurrenceOf (s sub : JStr) (includeSub ignoreCase : Bool) : JStr :=
  match indexOfSub ignoreCase sub s with
  | none => []
  | some i => s.drop (if includeSub then i else i + sub.length)

/-!  ## AutoCompleteComponent

From `SuggestionComponent.h`, class `AutoCompleteComponent`.  The
`SafePointer<TextEditor> editor` is modelled as `Option JStr`: `none` when
the editor has been deleted, `some text` otherwise. -/

structure AutoCompleteComponent where
  editor : Option JStr
  suggestion : JStr
  visible : Bool
  deriving Repr, DecidableEq

namespace AutoCompleteComponent

/-- `AutoCompleteComponent::getSuggestion`. -/
def getSuggestion (c : AutoCompleteComponent) : JStr :=
  match c.editor with
  | none => []
  | some text => text ++ c.suggestion

/-- `AutoCompleteComponent::autocomplete` (sets the editor's text). -/
def autocomplete (c : AutoCompleteComponent) : AutoCompleteComponent :=
  match c.editor with
  | none => c
  | some text => { c with editor := some (text ++ c.suggestion) }

/-- `AutoCompleteComponent::setSuggestion`. -/
def setSuggestion (c : AutoCompleteComponent) (suggestionText : JStr) :
    AutoCompleteComponent :=
  match c.editor with
  | none => c
  | some text =>
      let textUpToSpace := upToFirstOccurrenceOf text [' '] false false
      { c with
        visible := !suggestionText.isEmpty && textUpToSpace != suggestionText
        suggestion := fromFirstOccurrenceOf suggestionText textUpToSpace false true }

/-- The `editor` field of `AutoCompleteComponent` is a `SafePointer` to the
very `TextEditor` whose callbacks drive `SuggestionComponent`; when that
editor reports its text as `t`, the component's view of it is `t` as
well.  (Identity update on a dead pointer.) -/
def syncEditorText (c : AutoCompleteComponent) (t : JStr) : AutoCompleteComponent :=
  { c with editor := c.editor.map fun _ => t }

end AutoCompleteComponent

/-!  ## SuggestionComponent

From `SuggestionComponent.h`, class `SuggestionComponent`.  Buttons are the
20 `Suggestion` buttons created in the constructor; only the state that the
translated member functions read or write is kept (button text, description,
icon flag, toggle state, mouse interception). -/

/-- The state of one `Suggestion` button that the code manipulates. -/
structure SugButton where
  name : JStr
  description : JStr
  icon : Bool
  toggled : Bool
  intercepts : Bool
  deriving Repr, DecidableEq

/-- A fresh `Suggestion` button as built by the `SuggestionComponent`
constructor (its constructor calls `setText("", "", false)`). -/
def SugButton.fresh : SugButton :=
  { name := [], description := [], icon := false, toggled := false, intercepts := true }

/-- `Suggestion::setText(name, description, icon)`. -/
def SugButton.setText (b : SugButton) (n d : JStr) (ic : Bool) : SugButton :=
  { b with name := n, description := d, icon := ic }

/-- The `SugesstionState` enum (sic) of `SuggestionComponent`. -/
inductive SugesstionState
  | Hidden
  | ShowingObjects
  | ShowingArguments
  deriving Repr, DecidableEq

/-- Runtime faults the C++ code could hit: dereferencing a null pointer,
integer modulo with zero divisor, out-of-bounds indexing (all three are
undefined behaviour in the source language). -/
inductive RTErr
  | nullDeref
  | divByZero
  | indexOOB
  deriving Repr, DecidableEq

/-- The object library interface used by `textEditorTextChanged`:
`getArguments()[name]` (a `std::map` lookup, empty result when absent),
`autocomplete(text)` and `getObjectDescriptions()` lookup. -/
structure ObjectLibrary where
  getArguments : JStr → List (JStr × JStr × JStr)
  autocomplete : JStr → List (JStr × Bool)
  getObjectDescriptions : JStr → Option JStr

/-- The mutable state of `SuggestionComponent` that the translated member
functions touch.  `currentBox` is the `SafePointer<Object>` (set while a
callout box is open, nulled when the box closes or the object dies),
`openedEditor` the raw `TextEditor*`. -/
structure SuggestionComponent where
  buttons : List SugButton
  numOptions : Int
  currentidx : Int
  state : SugesstionState
  autoCompleteComponent : Option AutoCompleteComponent
  openedEditor : Option Unit
  currentBox : Option Unit
  visible : Bool
  deriving Repr, DecidableEq

/-- Replace element `i` of a list using `f`; identity when out of range. -/
def modifyAt (l : List α) (i : Nat) (f : α → α) : List α :=
  match l.get? i with
  | none => l
  | some a => l.set i (f a)

/-- Map a function over a list together with the index of each element,
starting the count at `i`. -/
def mapIdxFrom (i : Nat) (f : Nat → α → α) : List α → List α
  | [] => []
  | a :: as => f i a :: mapIdxFrom (i + 1) f as

/-- Map a function over a list together with the index of each element. -/
def mapIdxed (f : Nat → α → α) (l : List α) : List α :=
  mapIdxFrom 0 f l

namespace SuggestionComponent

/-- The state after the `SuggestionComponent` constructor: 20 fresh
buttons, no options, no callout box open. -/
def initial : SuggestionComponent :=
  { buttons := List.replicate 20 SugButton.fresh
    numOptions := 0
    currentidx := 0
    state := .Hidden
    autoCompleteComponent := none
    openedEditor := none
    currentBox := none
    visible := false }

/-- `SuggestionComponent::createCalloutBox` (state-relevant effects):
records the box and editor, creates the `AutoCompleteComponent` (whose
constructor makes it visible on the canvas), hides the popup. -/
def createCalloutBox (sc : SuggestionComponent) (editorText : JStr) :
    SuggestionComponent :=
  { sc with
    currentBox := some ()
    openedEditor := some ()
    autoCompleteComponent := some { editor := some editorText, suggestion := [], visible := true }
    visible := false }

/-- `SuggestionComponent::removeCalloutBox`. -/
def removeCalloutBox (sc : SuggestionComponent) : SuggestionComponent :=
  { sc with
    visible := false
    autoCompleteComponent := none
    openedEditor := none
    currentBox := none }

/-- The `SafePointer<Object> currentBox` is nulled by the framework when
the object it points to is destroyed. -/
def currentBoxDeleted (sc : SuggestionComponent) : SuggestionComponent :=
  { sc with currentBox := none }

/-- `SuggestionComponent::move(offset, setto)` (default `setto = -1`).
The `% numButtons` wrap uses C++ truncated modulo (`Int.tmod`); a zero
divisor or out-of-range `buttons[currentidx]` access is a runtime fault. -/
def move (sc : SuggestionComponent) (offset setto : Int) :
    Except RTErr SuggestionComponent :=
  match sc.openedEditor with
  | none => .ok sc
  | some _ =>
    let idx1 := if setto == -1 then sc.currentidx + offset else setto
    if sc.numOptions == 0 then .ok { sc with currentidx := idx1 }
    else
      let numButtons : Int := min 20 sc.numOptions
      if numButtons == 0 then .error .divByZero
      else
        let idx2 := (idx1 + numButtons).tmod numButtons
        if 0 ≤ idx2 ∧ idx2.toNat < sc.buttons.length then
          let buttons1 := modifyAt sc.buttons idx2.toNat fun b => { b with toggled := true }
          let sc1 := { sc with currentidx := idx2, buttons := buttons1 }
          match sc1.autoCompleteComponent with
          | some acc =>
            let newText := (buttons1.getD idx2.toNat SugButton.fresh).name
            .ok { sc1 with autoCompleteComponent := some (acc.setSuggestion newText) }
          | none => .ok sc1
        else .error .indexOOB

/-- The first pair of loops in the argument branch of
`textEditorTextChanged`: buttons below `min(buttons.size(), found.size())`
take an argument type and description without icon, buttons from
`numOptions` up are cleared; both loops drop the toggle state. -/
def argButtons (buttons : List SugButton) (found : List (JStr × JStr × JStr)) :
    List SugButton :=
  mapIdxed (fun i b =>
    if i < min buttons.length found.length then
      let arg := found.getD i ([], [], [])
      { b.setText arg.1 arg.2.1 false with intercepts := false, toggled := false }
    else if found.length ≤ i then
      { b.setText [] [] false with toggled := false }
    else b) buttons

/-- The pair of loops in the object branch of `textEditorTextChanged`:
buttons below `min(buttons.size(), numOptions)` take an object name with
an icon, plus its description when `getObjectDescriptions()` has one;
buttons from `numOptions` up are cleared. -/
def objButtons (lib : ObjectLibrary) (buttons : List SugButton)
    (found : List (JStr × Bool)) : List SugButton :=
  mapIdxed (fun i b =>
    if i < min buttons.length found.length then
      let entry := found.getD i ([], false)
      let b1 := match lib.getObjectDescriptions entry.1 with
        | some d => b.setText entry.1 d true
        | none => b.setText entry.1 [] true
      { b1 with intercepts := true }
    else if found.length ≤ i then b.setText [] [] false
    else b) buttons

/-- The loop of `textEditorTextChanged` that, in hvcc mode, keeps only the
autocomplete results whose name is in `Object::hvccObjects`
(`hvccObjectsFound.push_back` inside a range-for). -/
def hvccFilterLoop (hvccObjects : List JStr) (found : List (JStr × Bool)) :
    List (JStr × Bool) :=
  found.foldl (fun acc object =>
    if hvccObjects.contains object.1 then acc ++ [object] else acc) []

/-- The suggestion list `textEditorTextChanged` works from: the library's
autocomplete results, filtered by `hvccFilterLoop` when hvcc mode is on. -/
def foundObjects (lib : ObjectLibrary) (hvccMode : Bool)
    (hvccObjects : List JStr) (currentText : JStr) : List (JStr × Bool) :=
  let found := lib.autocomplete currentText
  if hvccMode then hvccFilterLoop hvccObjects found else found

/-- `SuggestionComponent::textEditorTextChanged` (state-relevant effects;
pure layout calls such as `resized()` and `updateBounds()` are omitted).
`hvccMode` is `currentBox->cnv->editor->hvccMode` and `hvccObjects` is
`Object::hvccObjects`.  Null-pointer dereferences, modulo by zero
and out-of-bounds accesses surface as `RTErr`. -/
def textEditorTextChanged (lib : ObjectLibrary) (hvccMode : Bool)
    (hvccObjects : List JStr) (sc : SuggestionComponent) (currentText : JStr) :
    Except RTErr SuggestionComponent :=
  match sc.currentBox with
  | none => .ok sc
  | some _ =>
    if containsSub currentText [' '] then
      -- "If there's a space, open arguments panel"
      let found := lib.getArguments (upToFirstOccurrenceOf currentText [' '] false false)
      let buttons1 := argButtons sc.buttons found
      let sc1 := { sc with
        state := .ShowingArguments
        buttons := buttons1
        numOptions := (found.length : Int)
        visible := found.length != 0
        currentidx := 0 }
      match sc1.autoCompleteComponent with
      | some acc =>
          let acc1 := (acc.syncEditorText currentText).setSuggestion []
          .ok { sc1 with autoCompleteComponent := some acc1 }
      | none => .ok sc1
    else
      -- buttons[currentidx]->setToggleState(true, dontSendNotification)
      if 0 ≤ sc.currentidx ∧ sc.currentidx.toNat < sc.buttons.length then
        let buttons1 := modifyAt sc.buttons sc.currentidx.toNat fun b => { b with toggled := true }
        let found := foundObjects lib hvccMode hvccObjects currentText
        let numOptions : Int := found.length
        let buttons2 := objButtons lib buttons1 found
        let textlen : Int := currentText.length
        if found.isEmpty || textlen == 0 then
          let sc1 := { sc with
            buttons := buttons2, numOptions := numOptions
            state := .Hidden, visible := false }
          match sc1.autoCompleteComponent with
          | some acc => .ok { sc1 with autoCompleteComponent := some (acc.setSuggestion []) }
          | none => .ok sc1
        else
          let numButtons : Int := min 20 numOptions
          if numButtons == 0 then .error .divByZero
          else
            let newidx := (sc.currentidx + numButtons).tmod numButtons
            if 0 ≤ newidx ∧ newidx.toNat < found.length then
              let fullName := (found.getD newidx.toNat ([], false)).1
              let sc1 := { sc with
                buttons := buttons2, numOptions := numOptions
                currentidx := newidx, state := .ShowingObjects, visible := true }
              -- `if (fullName.length() > textlen && autoCompleteComponent)`:
              -- a null autoCompleteComponent falls into the else branch, whose
              -- `autoCompleteComponent->setSuggestion("")` dereferences null
              match sc1.autoCompleteComponent with
              | none => .error .nullDeref
              | some acc =>
                let acc1 := acc.syncEditorText currentText
                if textlen < (fullName.length : Int) then
                  .ok { sc1 with autoCompleteComponent := some (acc1.setSuggestion fullName) }
                else
                  .ok { sc1 with autoCompleteComponent := some (acc1.setSuggestion []) }
            else .error .indexOOB
      else .error .indexOOB

end SuggestionComponent

/-!  ## SuggestionComponent lifecycle

The events that drive the component between callbacks: opening and closing
the callout box, death of the edited object, text changes and up/down
navigation.  A faulting callback (an `RTErr`) leaves the state unchanged
for the purpose of reachability. -/

inductive SugEvent
  | create (editorText : JStr)
  | remove
  | boxDeleted
  | textChanged (lib : ObjectLibrary) (hvccMode : Bool) (hvccObjects : List JStr) (text : JStr)
  | moveBy (offset setto : Int)

/-- One lifecycle step of the `SuggestionComponent`. -/
def sugStep (sc : SuggestionComponent) : SugEvent → SuggestionComponent
  | .create t => sc.createCalloutBox t
  | .remove => sc.removeCalloutBox
  | .boxDeleted => sc.currentBoxDeleted
  | .textChanged lib m o t => ((sc.textEditorTextChanged lib m o t).toOption).getD sc
  | .moveBy off st => ((sc.move off st).toOption).getD sc

/-- States of the `SuggestionComponent` reachable from its constructor. -/
inductive SugReachable : SuggestionComponent → Prop
  | init : SugReachable SuggestionComponent.initial
  | step {sc : SuggestionComponent} (e : SugEvent) :
      SugReachable sc → SugReachable (sugStep sc e)

/-- The up/down/click navigation inputs that reach `move`:
`move(-1)` and `move(1)` from the arrow keys, `move(0, i)` from a click on
button `i`. -/
inductive NavInput
  | up
  | down
  | select (i : Nat)

/-- Dispatch one navigation input to `move`, as the callbacks do. -/
def navMove (sc : SuggestionComponent) : NavInput → Except RTErr SuggestionComponent
  | .up => sc.move (-1) (-1)
  | .down => sc.move 1 (-1)
  | .select i => sc.move 0 (i : Int)

/-- Run a sequence of navigation inputs. -/
def runNav (sc : SuggestionComponent) (l : List NavInput) :
    Except RTErr SuggestionComponent :=
  l.foldlM navMove sc

/-- The lifecycle invariant of `SuggestionComponent`: while a callout box
is open the `AutoCompleteComponent` exists; the option count is
nonnegative; there are exactly 20 suggestion buttons. -/
def SugInv (sc : SuggestionComponent) : Prop :=
  (sc.currentBox.isSome = true → sc.autoCompleteComponent.isSome = true) ∧
  0 ≤ sc.numOptions ∧ sc.buttons.length = 20

/-- An object library with no objects, no arguments and no descriptions;
used to exercise the definitions at concrete inputs. -/
def emptyLibrary : ObjectLibrary :=
  { getArguments := fun _ => []
    autocomplete := fun _ => []
    getObjectDescriptions := fun _ => none }

/-- A one-object library: the object `osc~` with a description, one
argument signature, and itself as sole autocomplete result. -/
def oscLibrary : ObjectLibrary :=
  { getArguments := fun n =>
      if n = "osc~".toList then [("float".toList, "frequency".toList, "440".toList)] else []
    autocomplete := fun t =>
      if subAtStart false t "osc~".toList then [("osc~".toList, true)] else []
    getObjectDescriptions := fun n =>
      if n = "osc~".toList then some "sine wave oscillator".toList else none }

/-!  ## PluginMode

From `PluginMode.h`.  The canvas-state round trip (constructor saves,
`closePluginMode` restores) and the layout math of `resized()`. -/

/-- The canvas state that `PluginMode` saves, mutates and restores. -/
structure Canvas where
  zoomScale : ℚ
  pos : Int × Int
  locked : Bool
  presentationMode : Bool
  canvasOrigin : Int × Int
  openInPluginMode : Bool
  deriving Repr, DecidableEq

/-- The canvas viewport, reduced to whether the canvas is its viewed
component (`setViewedComponent`). -/
structure CnvViewport where
  viewedIsCanvas : Bool
  deriving Repr, DecidableEq

/-- The fields of `PluginMode` tied to entering/leaving plugin mode:
the saved original canvas properties and whether the canvas is a child of
the plugin-mode `content` component. -/
structure PluginModeData where
  originalCanvasScale : ℚ
  originalCanvasPos : Int × Int
  originalLockedMode : Bool
  originalPresentationMode : Bool
  contentHasCanvas : Bool
  deriving Repr, DecidableEq

/-- The canvas-state effects of the `PluginMode` constructor: save the
original properties, set zoom to 1, lock, enable presentation mode, detach
the canvas from its viewport, put it inside `content` at minus the canvas
origin. -/
def enterPluginMode (c : Canvas) (vp : CnvViewport) :
    Canvas × CnvViewport × PluginModeData :=
  let pmd : PluginModeData :=
    { originalCanvasScale := c.zoomScale
      originalCanvasPos := c.pos
      originalLockedMode := c.locked
      originalPresentationMode := c.presentationMode
      contentHasCanvas := true }
  let c1 := { c with
    zoomScale := 1
    locked := true
    presentationMode := true
    pos := (-c.canvasOrigin.1, -c.canvasOrigin.2) }
  let vp1 := { vp with viewedIsCanvas := false }
  (c1, vp1, pmd)

/-- `PluginMode::closePluginMode` (canvas-state effects): remove the canvas
from `content`, reattach it to the viewport, restore the saved
properties. -/
def closePluginMode (c : Canvas) (vp : CnvViewport) (pmd : PluginModeData) :
    Canvas × CnvViewport × PluginModeData :=
  let c1 := { c with
    openInPluginMode := false
    zoomScale := pmd.originalCanvasScale
    pos := pmd.originalCanvasPos
    locked := pmd.originalLockedMode
    presentationMode := pmd.originalPresentationMode }
  let vp1 := { vp with viewedIsCanvas := true }
  (c1, vp1, { pmd with contentHasCanvas := false })

/-- `int const titlebarHeight = 40` in `PluginMode`. -/
def titlebarHeight : Int := 40

/-- C++ `static_cast<int>` of a float value, modelled on `ℚ`:
truncation toward zero. -/
def ratTrunc (q : ℚ) : Int :=
  q.num.tdiv (q.den : Int)

/-- The layout state of the `PluginMode` component that `resized()` reads
and writes.  `pmWidth`/`pmHeight` are `getWidth()`/`getHeight()`;
`contentScale` is the accumulated scale factor of the `content`
transform (`content.getTransform()`); float arithmetic is over `ℚ`. -/
structure PluginModeView where
  pmWidth : Int
  pmHeight : Int
  patchWidth : Int
  patchHeight : Int
  nativeTitleBarHeight : Int
  isStandalone : Bool
  windowFullscreen : Bool
  contentScale : ℚ
  contentPos : Int × Int
  titleBarBounds : Int × Int × Int × Int
  fixedAspectRatio : ℚ
  deriving Repr, DecidableEq

namespace PluginModeView

/-- `float const width = float(cnv->patchWidth.getValue()) + 1.0f`. -/
def width (v : PluginModeView) : ℚ := (v.patchWidth : ℚ) + 1

/-- `float const height = float(cnv->patchHeight.getValue()) + 1.0f`. -/
def height (v : PluginModeView) : ℚ := (v.patchHeight : ℚ) + 1

/-- `PluginMode::resized()`.  Sets the constrainer's fixed aspect ratio,
then either (standalone fullscreen/kiosk) scales and centres the content
and collapses the title bar, or (normal) scales the content under the
title bar.  Resizer-bounds bookkeeping is omitted. -/
def resized (v : PluginModeView) : PluginModeView :=
  let controlsHeight : ℚ :=
    if v.windowFullscreen then 0 else (titlebarHeight : ℚ) + (v.nativeTitleBarHeight : ℚ)
  let scale : ℚ := (v.pmWidth : ℚ) / v.width
  let resizeRatio : ℚ := v.width / (v.height + controlsHeight / scale)
  let v1 := { v with fixedAspectRatio := resizeRatio }
  if v.isStandalone ∧ v.windowFullscreen then
    let scaleX : ℚ := (v.pmWidth : ℚ) / v.width
    let scaleY : ℚ := (v.pmHeight : ℚ) / v.height
    let scale2 : ℚ := min scaleX scaleY
    let scaledWidth : Int := ratTrunc (v.width * scale2)
    let scaledHeight : Int := ratTrunc (v.height * scale2)
    let x : Int := (v.pmWidth - scaledWidth).tdiv 2
    let y : Int := (v.pmHeight - scaledHeight).tdiv 2
    { v1 with
      contentScale := v.contentScale * scale2
      contentPos := (ratTrunc ((x : ℚ) / scale2), ratTrunc ((y : ℚ) / scale2))
      titleBarBounds := (0, 0, 0, 0) }
  else
    { v1 with
      contentScale := v.contentScale * scale
      contentPos := (0, ratTrunc ((titlebarHeight : ℚ) / scale))
      titleBarBounds := (0, 0, v.pmWidth, titlebarHeight) }

end PluginModeView

/-!  ## Concrete sample states

Used to exercise the theorems below at explicit inputs. -/

/-- The component right after `createCalloutBox` on an empty editor. -/
def sampleBox : SuggestionComponent :=
  SuggestionComponent.initial.createCalloutBox []

/-- A component showing one suggestion (as after a text change that found
a single match). -/
def sampleNavSC : SuggestionComponent :=
  { sampleBox with numOptions := 1, state := .ShowingObjects }

/-- A concrete standalone fullscreen plugin-mode view: a 600 × 500 window
showing a 299 × 199 patch. -/
def sampleFullscreenView : PluginModeView :=
  { pmWidth := 600, pmHeight := 500, patchWidth := 299, patchHeight := 199
    nativeTitleBarHeight := 30, isStandalone := true, windowFullscreen := true
    contentScale := 1, contentPos := (0, 0), titleBarBounds := (0, 0, 0, 0)
    fixedAspectRatio := 0 }

/-- A concrete canvas state before entering plugin mode. -/
def sampleCanvas : Canvas :=
  { zoomScale := (3 : ℚ) / 2, pos := (10, 20), locked := false
    presentationMode := false, canvasOrigin := (5, 7), openInPluginMode := true }

/-- A viewport showing the canvas. -/
def sampleViewport : CnvViewport := { viewedIsCanvas := true }

end Plugdata

/-!  # Theorems  -/

namespace Plugdata

theorem length_mapIdxFrom (f : Nat → α → α) (l : List α) (k : Nat) :
    (mapIdxFrom k f l).length = l.length := by
  induction l generalizing k with
  | nil => rfl
  | cons a as ih => simp [mapIdxFrom, ih]

theorem length_mapIdxed (f : Nat → α → α) (l : List α) :
    (mapIdxed f l).length = l.length :=
  length_mapIdxFrom f l 0

theorem getD_mapIdxFrom (f : Nat → α → α) (l : List α) (k i : Nat) (d : α)
    (h : i < l.length) :
    (mapIdxFrom k f l).getD i d = f (k + i) (l.getD i d) := by
  induction l generalizing k i with
  | nil => simp at h
  | cons a as ih =>
    cases i with
    | zero => simp [mapIdxFrom]
    | succ n =>
      have hn : n < as.length := by simpa using h
      simp only [mapIdxFrom, List.getD_cons_succ]
      rw [ih (k + 1) n hn]
      congr 1
      omega

theorem getD_mapIdxed (f : Nat → α → α) (l : List α) (i : Nat) (d : α)
    (h : i < l.length) :
    (mapIdxed f l).getD i d = f i (l.getD i d) := by
  simpa using getD_mapIdxFrom f l 0 i d h

theorem length_modifyAt (l : List α) (i : Nat) (f : α → α) :
    (modifyAt l i f).length = l.length := by
  unfold modifyAt
  split <;> simp

theorem charEq_self (ic : Bool) (a : Char) : charEq ic a a = true := by
  unfold charEq
  split <;> simp

theorem subAtStart_append_self (ic : Bool) (p r : JStr) :
    subAtStart ic p (p ++ r) = true := by
  induction p with
  | nil => rfl
  | cons a as ih => simp [subAtStart, charEq_self, ih]

theorem indexOfSub_self_append (ic : Bool) (p r : JStr) :
    indexOfSub ic p (p ++ r) = some 0 := by
  cases h : p ++ r with
  | nil =>
    have hp : p = [] := by
      cases p with
      | nil => rfl
      | cons a as => simp at h
    rw [hp]
    rfl
  | cons c rest =>
    have hs : subAtStart ic p (c :: rest) = true := h ▸ subAtStart_append_self ic p r
    simp [indexOfSub, hs]

theorem fromFirstOccurrenceOf_self_append (p r : JStr) :
    fromFirstOccurrenceOf (p ++ r) p false true = r := by
  unfold fromFirstOccurrenceOf
  rw [indexOfSub_self_append]
  simp

theorem hvccFold_eq_filter (obs : List JStr) (l acc : List (JStr × Bool)) :
    l.foldl (fun acc object =>
        if obs.contains object.1 then acc ++ [object] else acc) acc
      = acc ++ l.filter (fun p => obs.contains p.1) := by
  induction l generalizing acc with
  | nil => simp
  | cons a as ih =>
    simp only [List.foldl_cons, List.filter_cons]
    by_cases hc : obs.contains a.1
    · rw [if_pos hc, if_pos hc, ih]
      simp
    · rw [if_neg hc, if_neg hc, ih]

theorem hvccFilterLoop_eq_filter (obs : List JStr) (l : List (JStr × Bool)) :
    SuggestionComponent.hvccFilterLoop obs l = l.filter (fun p => obs.contains p.1) := by
  unfold SuggestionComponent.hvccFilterLoop
  simpa using hvccFold_eq_filter obs l []

theorem length_argButtons (b : List SugButton) (f : List (JStr × JStr × JStr)) :
    (SuggestionComponent.argButtons b f).length = b.length :=
  length_mapIdxed _ _

theorem length_objButtons (lib : ObjectLibrary) (b : List SugButton)
    (f : List (JStr × Bool)) :
    (SuggestionComponent.objButtons lib b f).length = b.length :=
  length_mapIdxed _ _

theorem argButtons_getD (b : List SugButton) (f : List (JStr × JStr × JStr))
    (i : Nat) (hi : i < min b.length f.length) :
    ((SuggestionComponent.argButtons b f).getD i SugButton.fresh).name
        = (f.getD i ([], [], [])).1 ∧
    ((SuggestionComponent.argButtons b f).getD i SugButton.fresh).description
        = (f.getD i ([], [], [])).2.1 := by
  have hib : i < b.length := lt_of_lt_of_le hi (min_le_left _ _)
  unfold SuggestionComponent.argButtons
  rw [getD_mapIdxed _ _ _ _ hib, if_pos hi]
  exact ⟨rfl, rfl⟩

theorem objButtons_getD (lib : ObjectLibrary) (b : List SugButton)
    (f : List (JStr × Bool)) (i : Nat) (hi : i < min b.length f.length) :
    ((SuggestionComponent.objButtons lib b f).getD i SugButton.fresh).name
        = (f.getD i ([], false)).1 ∧
    ((SuggestionComponent.objButtons lib b f).getD i SugButton.fresh).description
        = (lib.getObjectDescriptions (f.getD i ([], false)).1).getD [] := by
  have hib : i < b.length := lt_of_lt_of_le hi (min_le_left _ _)
  unfold SuggestionComponent.objButtons
  rw [getD_mapIdxed _ _ _ _ hib, if_pos hi]
  dsimp only
  refine ⟨?_, ?_⟩
  · split <;> rfl
  · split <;> rename_i heq <;> rw [heq] <;> rfl

theorem textChanged_ok_fields {lib : ObjectLibrary} {m : Bool} {o : List JStr}
    {sc sc' : SuggestionComponent} {t : JStr}
    (h : sc.textEditorTextChanged lib m o t = .ok sc') :
    sc'.currentBox = sc.currentBox ∧
    sc'.autoCompleteComponent.isSome = sc.autoCompleteComponent.isSome ∧
    sc'.buttons.length = sc.buttons.length ∧
    (0 ≤ sc.numOptions → 0 ≤ sc'.numOptions) := by
  unfold SuggestionComponent.textEditorTextChanged at h
  dsimp only at h
  repeat' split at h
  all_goals cases h
  all_goals
    simp_all [length_argButtons, length_objButtons, length_modifyAt,
      Int.natCast_nonneg]

theorem move_ok_fields {sc sc' : SuggestionComponent} {offset setto : Int}
    (h : sc.move offset setto = .ok sc') :
    sc'.currentBox = sc.currentBox ∧
    sc'.autoCompleteComponent.isSome = sc.autoCompleteComponent.isSome ∧
    sc'.buttons.length = sc.buttons.length ∧
    sc'.numOptions = sc.numOptions := by
  unfold SuggestionComponent.move at h
  dsimp only at h
  repeat' split at h
  all_goals cases h
  all_goals simp_all [length_modifyAt]

theorem sugInv_initial : SugInv SuggestionComponent.initial := by
  refine ⟨?_, ?_, ?_⟩ <;> simp [SuggestionComponent.initial]

theorem sugInv_step (sc : SuggestionComponent) (e : SugEvent) (h : SugInv sc) :
    SugInv (sugStep sc e) := by
  obtain ⟨hacc, hnum, hlen⟩ := h
  cases e with
  | create t =>
    exact ⟨fun _ => rfl, hnum, hlen⟩
  | remove =>
    exact ⟨by simp [sugStep, SuggestionComponent.removeCalloutBox], hnum, hlen⟩
  | boxDeleted =>
    exact ⟨by simp [sugStep, SuggestionComponent.currentBoxDeleted], hnum, hlen⟩
  | textChanged lib m o t =>
    cases hr : sc.textEditorTextChanged lib m o t with
    | ok sc' =>
      obtain ⟨hbox, hisacc, hblen, hn⟩ := textChanged_ok_fields hr
      have hstep : sugStep sc (.textChanged lib m o t) = sc' := by
        simp [sugStep, hr, Except.toOption]
      rw [hstep]
      exact ⟨fun hb => by rw [hisacc]; exact hacc (hbox ▸ hb), hn hnum, hblen.trans hlen⟩
    | error err =>
      have hstep : sugStep sc (.textChanged lib m o t) = sc := by
        simp [sugStep, hr, Except.toOption]
      rw [hstep]
      exact ⟨hacc, hnum, hlen⟩
  | moveBy off st =>
    cases hr : sc.move off st with
    | ok sc' =>
      obtain ⟨hbox, hisacc, hblen, hn⟩ := move_ok_fields hr
      have hstep : sugStep sc (.moveBy off st) = sc' := by
        simp [sugStep, hr, Except.toOption]
      rw [hstep]
      exact ⟨fun hb => by rw [hisacc]; exact hacc (hbox ▸ hb), hn ▸ hnum, hblen.trans hlen⟩
    | error err =>
      have hstep : sugStep sc (.moveBy off st) = sc := by
        simp [sugStep, hr, Except.toOption]
      rw [hstep]
      exact ⟨hacc, hnum, hlen⟩

theorem sugReachable_inv {sc : SuggestionComponent} (h : SugReachable sc) :
    SugInv sc := by
  induction h with
  | init => exact sugInv_initial
  | step e _ ih => exact sugInv_step _ e ih

theorem textChanged_no_nullDeref_aux {sc : SuggestionComponent}
    (hacc : sc.currentBox.isSome = true → sc.autoCompleteComponent.isSome = true)
    (lib : ObjectLibrary) (m : Bool) (o : List JStr) (t : JStr) :
    sc.textEditorTextChanged lib m o t ≠ .error .nullDeref := by
  intro h
  unfold SuggestionComponent.textEditorTextChanged at h
  dsimp only at h
  repeat' split at h
  all_goals simp_all

/-- C8: in every reachable component state, `textEditorTextChanged` never
dereferences a null `autoCompleteComponent`: whenever a callout box is
open the component exists, so in particular the unguarded else branch that
clears the suggestion when the best match is not longer than the typed
text is safe. -/
theorem textChanged_no_nullDeref {sc : SuggestionComponent}
    (hr : SugReachable sc) (lib : ObjectLibrary) (m : Bool) (o : List JStr)
    (t : JStr) :
    sc.textEditorTextChanged lib m o t ≠ .error .nullDeref :=
  textChanged_no_nullDeref_aux (sugReachable_inv hr).1 lib m o t

theorem textChanged_no_nullDeref_witness :
    SuggestionComponent.initial.textEditorTextChanged emptyLibrary false [] ['x']
      ≠ .error .nullDeref :=
  textChanged_no_nullDeref SugReachable.init emptyLibrary false [] ['x']

/-- C9: neither modulo site divides by zero: `move` returns before its
`% numButtons` when `numOptions == 0`, and `textEditorTextChanged` reaches
its wrap only after the early return on an empty result list or empty
text, so both divisors are at least 1. -/
theorem no_modulo_by_zero (sc : SuggestionComponent) (offset setto : Int)
    (lib : ObjectLibrary) (m : Bool) (o : List JStr) (t : JStr)
    (hnum : 0 ≤ sc.numOptions) :
    sc.move offset setto ≠ .error .divByZero ∧
    sc.textEditorTextChanged lib m o t ≠ .error .divByZero := by
  constructor
  · intro h
    unfold SuggestionComponent.move at h
    dsimp only at h
    repeat' split at h
    all_goals simp_all
    rename_i hne hmin
    have h1 : (0 : Int) < 20 ⊓ sc.numOptions := lt_min (by norm_num) (by omega)
    omega
  · intro h
    unfold SuggestionComponent.textEditorTextChanged at h
    dsimp only at h
    repeat' split at h
    all_goals simp_all
    rename_i hcond hmin
    have hlen : 0 < (SuggestionComponent.foundObjects lib m o t).length :=
      List.length_pos.mpr hcond.1
    have h1 : (0 : Int) < 20 ⊓ ((SuggestionComponent.foundObjects lib m o t).length : Int) :=
      lt_min (by norm_num) (by exact_mod_cast hlen)
    omega

theorem no_modulo_by_zero_witness :
    (SuggestionComponent.initial.move 1 (-1) ≠ .error .divByZero) ∧
    (SuggestionComponent.initial.textEditorTextChanged emptyLibrary false [] ['x']
      ≠ .error .divByZero) :=
  no_modulo_by_zero SuggestionComponent.initial 1 (-1) emptyLibrary false [] ['x']
    (by decide)

theorem move_ok_range {sc sc' : SuggestionComponent} {offset setto : Int}
    (h : sc.move offset setto = .ok sc')
    (h1 : 1 ≤ sc.numOptions) (h0 : 0 ≤ sc.currentidx)
    (hlt : sc.currentidx < min 20 sc.numOptions) :
    0 ≤ sc'.currentidx ∧ sc'.currentidx < min 20 sc'.numOptions := by
  have hm1 : (1 : Int) ≤ min 20 sc.numOptions := le_min (by norm_num) h1
  have hpos : (0 : Int) < min 20 sc.numOptions := lt_of_lt_of_le zero_lt_one hm1
  unfold SuggestionComponent.move at h
  dsimp only at h
  repeat' split at h
  all_goals cases h
  all_goals
    first
      | exact ⟨h0, hlt⟩
      | exact ⟨(by assumption : _ ∧ _).1, Int.tmod_lt_of_pos _ hpos⟩
      | simp_all

theorem move_nav_ok {sc : SuggestionComponent} (offset setto : Int)
    (h20 : sc.buttons.length = 20) (h1 : 1 ≤ sc.numOptions)
    (hd : -(min (20 : Int) sc.numOptions)
        ≤ (if (setto == -1) = true then sc.currentidx + offset else setto)) :
    ∃ sc', sc.move offset setto = .ok sc' := by
  have hm1 : (1 : Int) ≤ min 20 sc.numOptions := le_min (by norm_num) h1
  have hm2 : min (20 : Int) sc.numOptions ≤ 20 := min_le_left _ _
  have hpos : (0 : Int) < min 20 sc.numOptions := lt_of_lt_of_le zero_lt_one hm1
  unfold SuggestionComponent.move
  cases he : sc.openedEditor with
  | none => exact ⟨sc, rfl⟩
  | some u =>
    dsimp only
    rw [if_neg (show ¬((sc.numOptions == 0) = true) by
      simp only [beq_iff_eq]
      omega)]
    rw [if_neg (show ¬((min (20 : Int) sc.numOptions == 0) = true) by
      simp only [beq_iff_eq]
      intro hq
      rw [hq] at hm1
      norm_num at hm1)]
    have hdd : 0 ≤ (if (setto == -1) = true then sc.currentidx + offset else setto)
        + min 20 sc.numOptions := by linarith
    have ha : 0 ≤ ((if (setto == -1) = true then sc.currentidx + offset else setto)
        + min 20 sc.numOptions).tmod (min 20 sc.numOptions) :=
      Int.tmod_nonneg _ hdd
    have hb : ((if (setto == -1) = true then sc.currentidx + offset else setto)
        + min 20 sc.numOptions).tmod (min 20 sc.numOptions) < min 20 sc.numOptions :=
      Int.tmod_lt_of_pos _ hpos
    have hc : ((if (setto == -1) = true then sc.currentidx + offset else setto)
        + min 20 sc.numOptions).tmod (min 20 sc.numOptions) < 20 :=
      lt_of_lt_of_le hb hm2
    rw [if_pos (show (0 ≤ ((if (setto == -1) = true then sc.currentidx + offset else setto)
        + min 20 sc.numOptions).tmod (min 20 sc.numOptions)
        ∧ (((if (setto == -1) = true then sc.currentidx + offset else setto)
        + min 20 sc.numOptions).tmod (min 20 sc.numOptions)).toNat < sc.buttons.length) from
      ⟨ha, by rw [h20]; omega⟩)]
    cases hacc : sc.autoCompleteComponent with
    | some acc => exact ⟨_, rfl⟩
    | none => exact ⟨_, rfl⟩

theorem navMove_ok {sc : SuggestionComponent} (n : NavInput)
    (h20 : sc.buttons.length = 20) (h1 : 1 ≤ sc.numOptions)
    (h0 : 0 ≤ sc.currentidx) (hlt : sc.currentidx < min 20 sc.numOptions) :
    ∃ sc', navMove sc n = .ok sc' ∧ sc'.buttons.length = 20 ∧
      sc'.numOptions = sc.numOptions ∧ 0 ≤ sc'.currentidx ∧
      sc'.currentidx < min 20 sc'.numOptions := by
  have hm1 : (1 : Int) ≤ min 20 sc.numOptions := le_min (by norm_num) h1
  obtain ⟨offset, setto, heq, hd⟩ :
      ∃ offset setto : Int, navMove sc n = sc.move offset setto ∧
        -(min (20 : Int) sc.numOptions)
          ≤ (if (setto == -1) = true then sc.currentidx + offset else setto) := by
    cases n with
    | up =>
      refine ⟨-1, -1, rfl, ?_⟩
      rw [if_pos (by decide)]
      linarith
    | down =>
      refine ⟨1, -1, rfl, ?_⟩
      rw [if_pos (by decide)]
      linarith
    | select i =>
      refine ⟨0, (i : Int), rfl, ?_⟩
      rw [if_neg (show ¬(((i : Int) == -1) = true) by
        simp only [beq_iff_eq]
        omega)]
      have hi : (0 : Int) ≤ (i : Int) := Int.natCast_nonneg i
      linarith
  rw [heq]
  obtain ⟨sc', hok⟩ := move_nav_ok offset setto h20 h1 hd
  obtain ⟨_, _, hblen, hnum⟩ := move_ok_fields hok
  obtain ⟨ha, hb⟩ := move_ok_range hok h1 h0 hlt
  exact ⟨sc', hok, hblen.trans h20, hnum, ha, hb⟩

/-- C7: over any sequence of up/down/click navigation inputs with at least
one suggestion available, the selected index stays in
`[0, min(20, numOptions))` by modular wrap-around, and exactly 20
suggestion buttons exist throughout. -/
theorem nav_moves_keep_index_in_range {sc : SuggestionComponent}
    (h20 : sc.buttons.length = 20) (h1 : 1 ≤ sc.numOptions)
    (h0 : 0 ≤ sc.currentidx) (hlt : sc.currentidx < min 20 sc.numOptions)
    (l : List NavInput) :
    ∃ sc', runNav sc l = .ok sc' ∧ 0 ≤ sc'.currentidx ∧
      sc'.currentidx < min 20 sc'.numOptions ∧
      sc'.numOptions = sc.numOptions ∧ sc'.buttons.length = 20 := by
  induction l generalizing sc with
  | nil => exact ⟨sc, rfl, h0, hlt, rfl, h20⟩
  | cons n rest ih =>
    obtain ⟨sc1, hok, hlen1, hnum1, ha1, hb1⟩ := navMove_ok n h20 h1 h0 hlt
    obtain ⟨sc2, hrun, ha2, hb2, hnum2, hlen2⟩ :=
      ih hlen1 (by rw [hnum1]; exact h1) ha1 hb1
    refine ⟨sc2, ?_, ha2, hb2, hnum2.trans hnum1, hlen2⟩
    simp only [runNav, List.foldlM_cons, hok]
    exact hrun

theorem nav_moves_keep_index_in_range_witness :
    ∃ sc', runNav sampleNavSC
        [NavInput.down, NavInput.down, NavInput.up, NavInput.select 3] = .ok sc' ∧
      0 ≤ sc'.currentidx ∧ sc'.currentidx < min 20 sc'.numOptions ∧
      sc'.numOptions = sampleNavSC.numOptions ∧ sc'.buttons.length = 20 :=
  nav_moves_keep_index_in_range (by decide) (by decide) (by decide) (by decide) _

/-- C1 fails as stated: for the text "x" (no space, non-empty) against a
library whose autocomplete returns no result, `textEditorTextChanged`
enters state `Hidden`, not `ShowingObjects`. -/
theorem textChanged_counterexample :
    containsSub ['x'] [' '] = false ∧ ['x'] ≠ [] ∧
    (sampleBox.textEditorTextChanged emptyLibrary false [] ['x']).map
        SuggestionComponent.state = .ok .Hidden ∧
    SugesstionState.Hidden ≠ SugesstionState.ShowingObjects :=
  ⟨rfl, by decide, rfl, by decide⟩

/-- C1 (amended): while a box is open, a text with a space enters
`ShowingArguments` and fills the buttons from `getArguments()` keyed by
the text up to the first space; a non-empty text with no space whose
(hvcc-filtered) autocomplete result list is non-empty enters
`ShowingObjects` and fills the buttons with the result names paired with
their descriptions from `getObjectDescriptions()` when one exists. -/
theorem textChanged_fills_buttons (lib : ObjectLibrary) (m : Bool)
    (o : List JStr) (sc : SuggestionComponent) (text : JStr)
    (hbox : sc.currentBox = some ())
    (hacc : sc.autoCompleteComponent.isSome = true)
    (h20 : sc.buttons.length = 20)
    (h0 : 0 ≤ sc.currentidx) (hlt : sc.currentidx < 20) :
    (containsSub text [' '] = true →
      ∃ sc', sc.textEditorTextChanged lib m o text = .ok sc' ∧
        sc'.state = .ShowingArguments ∧
        sc'.numOptions
          = ((lib.getArguments (upToFirstOccurrenceOf text [' '] false false)).length : Int) ∧
        ∀ i, i < min 20 (lib.getArguments (upToFirstOccurrenceOf text [' '] false false)).length →
          (sc'.buttons.getD i SugButton.fresh).name
              = ((lib.getArguments (upToFirstOccurrenceOf text [' '] false false)).getD i
                  ([], [], [])).1 ∧
          (sc'.buttons.getD i SugButton.fresh).description
              = ((lib.getArguments (upToFirstOccurrenceOf text [' '] false false)).getD i
                  ([], [], [])).2.1) ∧
    (containsSub text [' '] = false → text ≠ [] →
      SuggestionComponent.foundObjects lib m o text ≠ [] →
      ∃ sc', sc.textEditorTextChanged lib m o text = .ok sc' ∧
        sc'.state = .ShowingObjects ∧
        sc'.numOptions = ((SuggestionComponent.foundObjects lib m o text).length : Int) ∧
        ∀ i, i < min 20 (SuggestionComponent.foundObjects lib m o text).length →
          (sc'.buttons.getD i SugButton.fresh).name
              = ((SuggestionComponent.foundObjects lib m o text).getD i ([], false)).1 ∧
          (sc'.buttons.getD i SugButton.fresh).description
              = (lib.getObjectDescriptions
                  ((SuggestionComponent.foundObjects lib m o text).getD i ([], false)).1).getD []) := by
  obtain ⟨acc, haccv⟩ := Option.isSome_iff_exists.mp hacc
  constructor
  · intro hcon
    unfold SuggestionComponent.textEditorTextChanged
    rw [hbox]
    dsimp only
    rw [hcon]
    rw [if_pos rfl]
    rw [haccv]
    refine ⟨_, rfl, rfl, rfl, ?_⟩
    intro i hi
    have hi' : i < min sc.buttons.length
        (lib.getArguments (upToFirstOccurrenceOf text [' '] false false)).length := by
      rw [h20]; exact hi
    exact argButtons_getD _ _ i hi'
  · intro hcon hne hfo
    have hm1 : (1 : Int)
        ≤ min 20 ((SuggestionComponent.foundObjects lib m o text).length : Int) := by
      have : 0 < (SuggestionComponent.foundObjects lib m o text).length :=
        List.length_pos.mpr hfo
      exact le_min (by norm_num) (by exact_mod_cast this)
    have hm2 : min (20 : Int) ((SuggestionComponent.foundObjects lib m o text).length : Int)
        ≤ (SuggestionComponent.foundObjects lib m o text).length := min_le_right _ _
    have hpos : (0 : Int)
        < min 20 ((SuggestionComponent.foundObjects lib m o text).length : Int) :=
      lt_of_lt_of_le zero_lt_one hm1
    unfold SuggestionComponent.textEditorTextChanged
    rw [hbox]
    dsimp only
    rw [hcon]
    rw [if_neg Bool.false_ne_true]
    rw [if_pos (show 0 ≤ sc.currentidx ∧ sc.currentidx.toNat < sc.buttons.length from
      ⟨h0, by rw [h20]; omega⟩)]
    rw [if_neg (show ¬((((SuggestionComponent.foundObjects lib m o text).isEmpty
        || ((text.length : Int) == 0)) = true)) by
      simp only [Bool.or_eq_true, beq_iff_eq, List.isEmpty_iff]
      push_neg
      refine ⟨hfo, ?_⟩
      have : 0 < text.length := List.length_pos.mpr hne
      omega)]
    rw [if_neg (show ¬((min (20 : Int)
        ((SuggestionComponent.foundObjects lib m o text).length : Int) == 0) = true) by
      simp only [beq_iff_eq]
      omega)]
    have hd : 0 ≤ sc.currentidx
        + min 20 ((SuggestionComponent.foundObjects lib m o text).length : Int) := by
      linarith
    have ha := Int.tmod_nonneg
      (min (20 : Int) ((SuggestionComponent.foundObjects lib m o text).length : Int)) hd
    have hb := Int.tmod_lt_of_pos (sc.currentidx
        + min 20 ((SuggestionComponent.foundObjects lib m o text).length : Int)) hpos
    rw [if_pos (show 0 ≤ (sc.currentidx
        + min 20 ((SuggestionComponent.foundObjects lib m o text).length : Int)).tmod
          (min 20 ((SuggestionComponent.foundObjects lib m o text).length : Int))
        ∧ ((sc.currentidx
        + min 20 ((SuggestionComponent.foundObjects lib m o text).length : Int)).tmod
          (min 20 ((SuggestionComponent.foundObjects lib m o text).length : Int))).toNat
          < (SuggestionComponent.foundObjects lib m o text).length from
      ⟨ha, by omega⟩)]
    rw [haccv]
    dsimp only
    have hbtn : ∀ i, i < min 20 (SuggestionComponent.foundObjects lib m o text).length →
        ((SuggestionComponent.objButtons lib
            (modifyAt sc.buttons sc.currentidx.toNat fun b => { b with toggled := true })
            (SuggestionComponent.foundObjects lib m o text)).getD i SugButton.fresh).name
          = ((SuggestionComponent.foundObjects lib m o text).getD i ([], false)).1 ∧
        ((SuggestionComponent.objButtons lib
            (modifyAt sc.buttons sc.currentidx.toNat fun b => { b with toggled := true })
            (SuggestionComponent.foundObjects lib m o text)).getD i SugButton.fresh).description
          = (lib.getObjectDescriptions
              ((SuggestionComponent.foundObjects lib m o text).getD i ([], false)).1).getD [] := by
      intro i hi
      have hi' : i < min (modifyAt sc.buttons sc.currentidx.toNat fun b =>
          { b with toggled := true }).length
          (SuggestionComponent.foundObjects lib m o text).length := by
        rw [length_modifyAt, h20]
        exact hi
      exact objButtons_getD lib _ _ i hi'
    split
    · exact ⟨_, rfl, rfl, rfl, hbtn⟩
    · exact ⟨_, rfl, rfl, rfl, hbtn⟩

theorem textChanged_fills_buttons_witness :
    ∃ sc', sampleBox.textEditorTextChanged oscLibrary false [] "os".toList = .ok sc' ∧
      sc'.state = .ShowingObjects ∧
      sc'.numOptions
        = ((SuggestionComponent.foundObjects oscLibrary false [] "os".toList).length : Int) ∧
      ∀ i, i < min 20 (SuggestionComponent.foundObjects oscLibrary false [] "os".toList).length →
        (sc'.buttons.getD i SugButton.fresh).name
            = ((SuggestionComponent.foundObjects oscLibrary false [] "os".toList).getD i
                ([], false)).1 ∧
        (sc'.buttons.getD i SugButton.fresh).description
            = (oscLibrary.getObjectDescriptions
                ((SuggestionComponent.foundObjects oscLibrary false [] "os".toList).getD i
                  ([], false)).1).getD [] :=
  (textChanged_fills_buttons oscLibrary false [] sampleBox "os".toList rfl rfl
      (by decide) (by decide) (by decide)).2 rfl (by decide) (by decide)

/-- C2: entering plugin mode and then closing it restores the canvas's zoom
scale, position, locked flag and presentation-mode flag to their values at
entry, and reattaches the canvas as the viewport's viewed component. -/
theorem pluginMode_close_round_trips (c : Canvas) (vp : CnvViewport)
    (h : vp.viewedIsCanvas = true) :
    ((closePluginMode (enterPluginMode c vp).1 (enterPluginMode c vp).2.1
        (enterPluginMode c vp).2.2).1.zoomScale = c.zoomScale) ∧
    ((closePluginMode (enterPluginMode c vp).1 (enterPluginMode c vp).2.1
        (enterPluginMode c vp).2.2).1.pos = c.pos) ∧
    ((closePluginMode (enterPluginMode c vp).1 (enterPluginMode c vp).2.1
        (enterPluginMode c vp).2.2).1.locked = c.locked) ∧
    ((closePluginMode (enterPluginMode c vp).1 (enterPluginMode c vp).2.1
        (enterPluginMode c vp).2.2).1.presentationMode = c.presentationMode) ∧
    ((closePluginMode (enterPluginMode c vp).1 (enterPluginMode c vp).2.1
        (enterPluginMode c vp).2.2).2.1.viewedIsCanvas = vp.viewedIsCanvas) := by
  simp [enterPluginMode, closePluginMode, h]

theorem pluginMode_close_round_trips_witness :
    sampleViewport.viewedIsCanvas = true ∧
    ((closePluginMode (enterPluginMode sampleCanvas sampleViewport).1
        (enterPluginMode sampleCanvas sampleViewport).2.1
        (enterPluginMode sampleCanvas sampleViewport).2.2).1.zoomScale
      = sampleCanvas.zoomScale) :=
  ⟨rfl, (pluginMode_close_round_trips sampleCanvas sampleViewport rfl).1⟩

/-- C6: the `PluginMode` constructor sets the canvas zoom scale to 1, sets
locked and presentation mode to true, detaches the canvas from its
viewport, adds it to the plugin-mode content component, and positions it
at minus the canvas origin. -/
theorem pluginMode_enter_reparents (c : Canvas) (vp : CnvViewport) :
    ((enterPluginMode c vp).1.zoomScale = 1) ∧
    ((enterPluginMode c vp).1.locked = true) ∧
    ((enterPluginMode c vp).1.presentationMode = true) ∧
    ((enterPluginMode c vp).2.1.viewedIsCanvas = false) ∧
    ((enterPluginMode c vp).2.2.contentHasCanvas = true) ∧
    ((enterPluginMode c vp).1.pos = (-c.canvasOrigin.1, -c.canvasOrigin.2)) := by
  simp [enterPluginMode]

/-- C3: every `resized()` call sets the bounds constrainer's fixed aspect
ratio to `width / (height + controlsHeight / scale)` where
`width = patchWidth + 1`, `height = patchHeight + 1`,
`scale = getWidth() / width`, and `controlsHeight` is 0 in fullscreen and
`titlebarHeight + nativeTitleBarHeight` otherwise. -/
theorem pluginMode_resized_fixed_aspect_ratio (v : PluginModeView) :
    (v.resized.fixedAspectRatio
        = v.width / (v.height +
            (if v.windowFullscreen then 0
             else (titlebarHeight : ℚ) + (v.nativeTitleBarHeight : ℚ)) /
            ((v.pmWidth : ℚ) / v.width))) ∧
    v.width = (v.patchWidth : ℚ) + 1 ∧ v.height = (v.patchHeight : ℚ) + 1 := by
  refine ⟨?_, rfl, rfl⟩
  unfold PluginModeView.resized
  by_cases hf : v.windowFullscreen = true
  · by_cases hs : v.isStandalone = true
    · simp [hf, hs]
    · simp [hf, hs]
  · simp [hf]

/-- C4: in standalone fullscreen/kiosk mode, `resized()` scales the content
by `scale = min(getWidth()/width, getHeight()/height)`, centres it at
`((getWidth() - int(width*scale))/2 / scale,
(getHeight() - int(height*scale))/2 / scale)` (each coordinate truncated
to `int` by `setTopLeftPosition`), and collapses the title bar to zero
bounds. -/
theorem pluginMode_resized_fullscreen (v : PluginModeView)
    (hs : v.isStandalone = true) (hf : v.windowFullscreen = true) :
    (v.resized.contentScale
        = v.contentScale * min ((v.pmWidth : ℚ) / v.width) ((v.pmHeight : ℚ) / v.height)) ∧
    (v.resized.contentPos
        = (ratTrunc (((v.pmWidth -
              ratTrunc (v.width * min ((v.pmWidth : ℚ) / v.width) ((v.pmHeight : ℚ) / v.height))).tdiv 2 : ℚ) /
              min ((v.pmWidth : ℚ) / v.width) ((v.pmHeight : ℚ) / v.height)),
           ratTrunc (((v.pmHeight -
              ratTrunc (v.height * min ((v.pmWidth : ℚ) / v.width) ((v.pmHeight : ℚ) / v.height))).tdiv 2 : ℚ) /
              min ((v.pmWidth : ℚ) / v.width) ((v.pmHeight : ℚ) / v.height)))) ∧
    (v.resized.titleBarBounds = (0, 0, 0, 0)) := by
  unfold PluginModeView.resized
  rw [if_pos ⟨hs, hf⟩]
  exact ⟨rfl, rfl, rfl⟩

theorem pluginMode_resized_fullscreen_witness :
    sampleFullscreenView.isStandalone = true ∧
    sampleFullscreenView.windowFullscreen = true ∧
    sampleFullscreenView.resized.titleBarBounds = (0, 0, 0, 0) :=
  ⟨rfl, rfl, (pluginMode_resized_fullscreen sampleFullscreenView rfl rfl).2.2⟩

/-- C5: `AutoCompleteComponent::setSuggestion` makes the overlay visible
iff the suggestion text is non-empty and differs from the editor text up
to the first space; the stored remainder is the suggestion text after the
first occurrence of that typed prefix, so (when the typed prefix begins
the suggestion) `getSuggestion` returns the editor text followed by the
untyped remainder and `autocomplete()` sets the editor text to exactly
that concatenation. -/
theorem autoComplete_setSuggestion_spec (c : AutoCompleteComponent)
    (t s rest : JStr) (he : c.editor = some t) :
    ((c.setSuggestion s).visible = true ↔
        s ≠ [] ∧ upToFirstOccurrenceOf t [' '] false false ≠ s) ∧
    ((c.setSuggestion s).suggestion
        = fromFirstOccurrenceOf s (upToFirstOccurrenceOf t [' '] false false) false true) ∧
    (s = upToFirstOccurrenceOf t [' '] false false ++ rest →
      (c.setSuggestion s).suggestion = rest ∧
      (c.setSuggestion s).getSuggestion = t ++ rest ∧
      ((c.setSuggestion s).autocomplete).editor = some (t ++ rest)) := by
  refine ⟨?_, ?_, ?_⟩
  · simp [AutoCompleteComponent.setSuggestion, he, List.isEmpty_iff, and_comm]
  · simp [AutoCompleteComponent.setSuggestion, he]
  · intro hsplit
    have hsug : (c.setSuggestion s).suggestion = rest := by
      simp [AutoCompleteComponent.setSuggestion, he, hsplit,
        fromFirstOccurrenceOf_self_append]
    have hed : (c.setSuggestion s).editor = some t := by
      simp [AutoCompleteComponent.setSuggestion, he]
    refine ⟨hsug, ?_, ?_⟩
    · simp [AutoCompleteComponent.getSuggestion, hed, hsug]
    · simp [AutoCompleteComponent.autocomplete, hed, hsug]

theorem autoComplete_setSuggestion_spec_witness :
    (AutoCompleteComponent.setSuggestion
        ⟨some "os".toList, [], false⟩ "osc~".toList).suggestion = "c~".toList :=
  ((autoComplete_setSuggestion_spec ⟨some "os".toList, [], false⟩
      "os".toList "osc~".toList "c~".toList rfl).2.2 (by decide)).1

/-- C10: with hvcc mode enabled the suggestion list that
`textEditorTextChanged` displays is exactly the subsequence of the
library's autocomplete results whose names are contained in
`Object::hvccObjects`, in their original order; with hvcc mode disabled
the results are used unfiltered. -/
theorem hvcc_filter_spec (lib : ObjectLibrary) (obs : List JStr) (t : JStr) :
    (SuggestionComponent.foundObjects lib true obs t
        = (lib.autocomplete t).filter (fun p => obs.contains p.1)) ∧
    ((SuggestionComponent.foundObjects lib true obs t).Sublist (lib.autocomplete t)) ∧
    (∀ p, p ∈ SuggestionComponent.foundObjects lib true obs t ↔
        p ∈ lib.autocomplete t ∧ obs.contains p.1 = true) ∧
    (SuggestionComponent.foundObjects lib false obs t = lib.autocomplete t) := by
  have h1 : SuggestionComponent.foundObjects lib true obs t
      = (lib.autocomplete t).filter (fun p => obs.contains p.1) := by
    simp [SuggestionComponent.foundObjects, hvccFilterLoop_eq_filter]
  refine ⟨h1, ?_, ?_, rfl⟩
  · rw [h1]
    exact List.filter_sublist _
  · intro p
    rw [h1]
    simp [List.mem_filter]

end Plugdata
